import Mathlib

/-!
# Verification of the streaming ingestion and reconciliation core

Shallow embedding of the ingestion-and-reconciliation core of the
`automated-intelligence-platform` repository
(`snowpipe-streaming-python/src`), together with theorems settling the
stated properties of its specification.

Tables are modelled as lists of rows; SQL statements of
`reconciliation_manager.py` are modelled as list transformations that
evaluate each statement's subqueries against the table snapshot the
statement sees.  Machine arithmetic is `Nat`/`Int`/`Rat`; monetary
values computed with `decimal.Decimal` in the source are embedded as
exact rationals.
-/

namespace AutomatedIntelligence

/-! ## Reconciliation data model (`reconciliation_manager.py`)

A row of the ORDERS table, restricted to the columns the reconciliation
statements read: `order_id`, `order_date` and `total_amount`
(the duplicate-delete statement keys on exactly this triple).
`order_id` and `order_date` are abstracted to naturals, `total_amount`
to an integer number of cents. -/
structure OrderRow where
  order_id : ℕ
  order_date : ℕ
  total_amount : ℤ
deriving DecidableEq, Repr

/-- A row of the ORDER_ITEMS table, restricted to the columns the
reconciliation statements read. -/
structure ItemRow where
  order_item_id : ℕ
  order_id : ℕ
deriving DecidableEq, Repr

/-- The joint state of the two destination tables. -/
structure TableState where
  orders : List OrderRow
  items : List ItemRow
deriving DecidableEq, Repr

/-- The `stats` dictionary built by `ReconciliationManager.reconcile_and_cleanup`. -/
structure ReconcileStats where
  orphaned_orders_found : ℕ
  orphaned_orders_deleted : ℕ
  orphaned_items_found : ℕ
  orphaned_items_deleted : ℕ
  duplicate_orders_found : ℕ
  duplicate_orders_deleted : ℕ
  final_orders_count : ℕ
  final_items_count : ℕ
deriving DecidableEq, Repr

/-- Does some item row reference this order id?  (The `LEFT JOIN ... WHERE
oi.order_id IS NULL` test of the orphaned-orders delete, negated.) -/
def hasMatchingItem (items : List ItemRow) (oid : ℕ) : Bool :=
  items.any (fun it => it.order_id == oid)

/-- Does some order row carry this order id?  (The join test of the
orphaned-items delete, negated.) -/
def hasMatchingOrder (orders : List OrderRow) (oid : ℕ) : Bool :=
  orders.any (fun o => o.order_id == oid)

/-- Step 1 of `reconcile_and_cleanup`: the orders table after
`DELETE FROM orders WHERE order_id IN (SELECT o.order_id FROM orders o
LEFT JOIN order_items oi ON o.order_id = oi.order_id WHERE oi.order_id IS NULL)`:
only rows with at least one matching item survive. -/
def ordersAfterOrphanCleanup (s : TableState) : List OrderRow :=
  s.orders.filter (fun o => hasMatchingItem s.items o.order_id)

/-- `cursor.rowcount` of the step-1 delete. -/
def orphanedOrdersDeleted (s : TableState) : ℕ :=
  s.orders.length - (ordersAfterOrphanCleanup s).length

/-- Step 2 of `reconcile_and_cleanup`: the items table after
`DELETE FROM order_items WHERE order_id IN (...)`; the subquery joins
against the orders table as left by step 1. -/
def itemsAfterOrphanCleanup (s : TableState) : List ItemRow :=
  s.items.filter (fun it => hasMatchingOrder (ordersAfterOrphanCleanup s) it.order_id)

/-- `cursor.rowcount` of the step-2 delete. -/
def orphanedItemsDeleted (s : TableState) : ℕ :=
  s.items.length - (itemsAfterOrphanCleanup s).length

/-- Step 3's pre-delete count query:
`SELECT COUNT(*) - COUNT(DISTINCT order_id) FROM orders`, evaluated on the
orders table as left by step 1. -/
def duplicateOrdersFound (l : List OrderRow) : ℕ :=
  l.length - (l.map (fun o => o.order_id)).dedup.length

/-- `ROW_NUMBER() OVER (PARTITION BY order_id ORDER BY order_date) > 1`
for the row at position `i`: some other row of the same `order_id` ranks
strictly before it.  SQL leaves the order among `order_date` ties
unspecified; we resolve ties by table position, which is one admissible
engine behaviour (the theorems below about exact-duplicate rows hold
under every tie resolution, since exact duplicates tie in all columns). -/
def rankedAfterFirst (l : List OrderRow) (i : ℕ) (r : OrderRow) : Bool :=
  l.enum.any (fun js =>
    js.2.order_id == r.order_id &&
      (js.2.order_date < r.order_date ||
        (js.2.order_date == r.order_date && js.1 < i)))

/-- The rows selected by step 3's inner subquery (`WHERE rn > 1`), projected
to the `(order_id, order_date, total_amount)` triples the outer
`DELETE ... WHERE (order_id, order_date, total_amount) IN (...)` compares on. -/
def dupDeleteKeys (l : List OrderRow) : List (ℕ × ℕ × ℤ) :=
  l.enum.filterMap (fun ir =>
    if rankedAfterFirst l ir.1 ir.2 then
      some (ir.2.order_id, ir.2.order_date, ir.2.total_amount)
    else none)

/-- Step 3's delete statement: every row whose column triple appears among
the `rn > 1` triples is removed.  Executed only when the pre-delete
duplicate count is positive, exactly as in the source. -/
def ordersAfterDupCleanup (l : List OrderRow) : List OrderRow :=
  if 0 < duplicateOrdersFound l then
    l.filter (fun r =>
      !(decide ((r.order_id, r.order_date, r.total_amount) ∈ dupDeleteKeys l)))
  else l

/-- `cursor.rowcount` of the step-3 delete (0 when the delete is skipped). -/
def duplicateOrdersDeleted (l : List OrderRow) : ℕ :=
  l.length - (ordersAfterDupCleanup l).length

/-- `ReconciliationManager.reconcile_and_cleanup`: the three cleanup steps in
source order, followed by the final-count capture; returns the `stats`
dictionary and the resulting table state. -/
def reconcile_and_cleanup (s : TableState) : ReconcileStats × TableState :=
  let orders1 := ordersAfterOrphanCleanup s
  let items1 := itemsAfterOrphanCleanup s
  let orders2 := ordersAfterDupCleanup orders1
  let stats : ReconcileStats :=
    { orphaned_orders_found := orphanedOrdersDeleted s
      orphaned_orders_deleted := orphanedOrdersDeleted s
      orphaned_items_found := orphanedItemsDeleted s
      orphaned_items_deleted := orphanedItemsDeleted s
      duplicate_orders_found := duplicateOrdersFound orders1
      duplicate_orders_deleted := duplicateOrdersDeleted orders1
      final_orders_count := orders2.length
      final_items_count := items1.length }
  (stats, { orders := orders2, items := items1 })

/-! ## Concrete table states used to exhibit behaviour -/

/-- A table state whose orders table holds two rows that agree on all of
`(order_id, order_date, total_amount)` — exactly what an at-least-once
retry that re-sends a committed batch produces — plus one item row so the
orphan-cleanup steps leave the state untouched. -/
def exactDupState : TableState :=
  { orders := [⟨1, 10, 100⟩, ⟨1, 10, 100⟩], items := [⟨500, 1⟩] }

/-! ## Partition plan (`parallel_streaming_orchestrator.py`, `main`)

`main` computes `orders_per_instance = total_orders // num_instances` and
`customer_range_size = max_customer_id // num_instances`, then for each
instance index `i` in `range(num_instances)` assigns an order quota and a
closed customer-id range `[customer_id_start, customer_id_end]`. -/

/-- `orders_per_instance = total_orders // num_instances`. -/
def orders_per_instance (total_orders num_instances : ℕ) : ℕ :=
  total_orders / num_instances

/-- `orders_for_this_instance` for instance `i`: the last instance receives
`total_orders - orders_per_instance * i`, every other instance receives
`orders_per_instance`. -/
def orders_for_this_instance (total_orders num_instances i : ℕ) : ℕ :=
  if i = num_instances - 1 then
    total_orders - orders_per_instance total_orders num_instances * i
  else orders_per_instance total_orders num_instances

/-- `customer_range_size = max_customer_id // num_instances`. -/
def customer_range_size (max_customer_id num_instances : ℕ) : ℕ :=
  max_customer_id / num_instances

/-- `customer_id_start = (i * customer_range_size) + 1`. -/
def customer_id_start (max_customer_id num_instances i : ℕ) : ℕ :=
  i * customer_range_size max_customer_id num_instances + 1

/-- `customer_id_end`: the last instance ends at `max_customer_id`, every
other instance at `(i + 1) * customer_range_size`. -/
def customer_id_end (max_customer_id num_instances i : ℕ) : ℕ :=
  if i = num_instances - 1 then max_customer_id
  else (i + 1) * customer_range_size max_customer_id num_instances

/-- The property claimed of the partition plan for totals `T`, customer
count `C` and instance count `N`: the per-instance order quotas are
`floor(T/N)` for the first `N-1` instances and `T - (N-1)*floor(T/N)` for
the last, summing to exactly `T`; and the customer-id ranges start at 1,
are contiguous (each range starts right after its predecessor ends),
pairwise disjoint, and cover exactly `[1, C]`. -/
def PartitionPlanSpec (T C N : ℕ) : Prop :=
  (∀ i, i < N - 1 → orders_for_this_instance T N i = T / N) ∧
    orders_for_this_instance T N (N - 1) = T - (N - 1) * (T / N) ∧
    (Finset.range N).sum (orders_for_this_instance T N) = T ∧
    customer_id_start C N 0 = 1 ∧
    (∀ i, i + 1 < N →
      customer_id_end C N i + 1 = customer_id_start C N (i + 1)) ∧
    customer_id_end C N (N - 1) = C ∧
    (∀ i, i < N → customer_id_start C N i ≤ customer_id_end C N i) ∧
    (∀ i j, i < j → j < N →
      customer_id_end C N i < customer_id_start C N j) ∧
    (∀ k, 1 ≤ k ∧ k ≤ C ↔
      ∃ i, i < N ∧ customer_id_start C N i ≤ k ∧ k ≤ customer_id_end C N i)

/-! ## Ingestion channel wrapper (`snowpipe_streaming_manager.py`) -/

/-- Is `pat` equal to a leading segment of `txt`? -/
def leadsWith : List Char → List Char → Bool
  | [], _ => true
  | _ :: _, [] => false
  | a :: as, b :: bs => a == b && leadsWith as bs

/-- Does `pat` occur as a contiguous run inside `txt`?  (Python's `in`
operator on strings.) -/
def hasRun (pat : List Char) : List Char → Bool
  | [] => leadsWith pat []
  | t :: ts => leadsWith pat (t :: ts) || hasRun pat ts

/-- The backpressure test of `_insert_with_backpressure_retry`:
`"ReceiverSaturated" in error_msg or "429" in error_msg`. -/
def isBackpressureMsg (msg : String) : Bool :=
  hasRun ("ReceiverSaturated".toList) msg.toList
    || hasRun ("429".toList) msg.toList

/-- What the underlying `channel.append_rows` call does on one attempt:
return normally, raise a `StreamingIngestError` carrying a message, or
raise an exception of any other class. -/
inductive AppendOutcome where
  | ok
  | ingestErr (msg : String)
  | otherErr
deriving DecidableEq, Repr

/-- How a `_insert_with_backpressure_retry` call ends. -/
inductive RetryOutcome where
  | returned
  | raisedIngest (msg : String)
  | raisedOther
  | fellThrough
deriving DecidableEq, Repr

/-- The observable trace of one `_insert_with_backpressure_retry` call:
how many `append_rows` attempts were made, the `time.sleep` delays in
order (rational seconds), and how the call ended. -/
structure RetryTrace where
  attempts : ℕ
  sleeps : List ℚ
  outcome : RetryOutcome
deriving DecidableEq, Repr

/-- The `for attempt in range(max_retries)` loop of
`_insert_with_backpressure_retry`.  `behavior attempt` is what
`append_rows` does on that attempt, `remaining = max_retries - attempt`
counts the loop iterations left, `delay` is the current backoff delay.  A
backpressure error is retried only while `attempt < max_retries - 1`
(`0 < remaining` after this iteration), sleeping the current delay and then
doubling it, capped at `maxDelay`; every other error is re-raised at once.
`fellThrough` marks the unreachable loop exit. -/
def insertRetryGo (behavior : ℕ → AppendOutcome) (maxDelay : ℚ) :
    ℕ → ℕ → ℚ → RetryTrace
  | 0, _, _ => { attempts := 0, sleeps := [], outcome := .fellThrough }
  | remaining + 1, attempt, delay =>
    match behavior attempt with
    | .ok => { attempts := 1, sleeps := [], outcome := .returned }
    | .ingestErr msg =>
      if isBackpressureMsg msg then
        if 0 < remaining then
          let t := insertRetryGo behavior maxDelay remaining (attempt + 1)
            (min (delay * 2) maxDelay)
          { attempts := t.attempts + 1, sleeps := delay :: t.sleeps,
            outcome := t.outcome }
        else { attempts := 1, sleeps := [], outcome := .raisedIngest msg }
      else { attempts := 1, sleeps := [], outcome := .raisedIngest msg }
    | .otherErr => { attempts := 1, sleeps := [], outcome := .raisedOther }

/-- `_insert_with_backpressure_retry behavior max_retries initial_delay
max_delay`, entered at attempt 0. -/
def insert_with_backpressure_retry (behavior : ℕ → AppendOutcome)
    (max_retries : ℕ) (initial_delay max_delay : ℚ) : RetryTrace :=
  insertRetryGo behavior max_delay max_retries 0 initial_delay

/-- The trace of one wrapper call under the source's default parameters:
`max_retries = 5`, `initial_delay = 1.0`, `max_delay = 30.0`. -/
def retryTraceOf (behavior : ℕ → AppendOutcome) : RetryTrace :=
  insert_with_backpressure_retry behavior 5 1 30

/-- The sequence of backoff delays available to a run entered with `fuel`
loop iterations left and current delay `d`: each retry sleeps the current
delay, then doubles it, capped at `maxDelay`; the final iteration never
sleeps. -/
def backoffDelays (maxDelay : ℚ) : ℕ → ℚ → List ℚ
  | 0, _ => []
  | 1, _ => []
  | r + 2, d => d :: backoffDelays maxDelay (r + 1) (min (d * 2) maxDelay)

/-- A concrete append behaviour: backpressure on the first two attempts
(one `ReceiverSaturated` message, one `429` message), success afterwards. -/
def saturatedTwiceThenOk : ℕ → AppendOutcome
  | 0 => .ingestErr ("ReceiverSaturated: insert buffers full")
  | 1 => .ingestErr ("HTTP 429 received from ingest endpoint")
  | _ => .ok

/-! ## Maximum customer id (`snowpipe_streaming_manager.py`,
`get_max_customer_id`) and the orchestrator's pre-ingestion phase -/

/-- What `cursor.fetchone()` yields for
`SELECT MAX(CUSTOMER_ID) FROM ...CUSTOMERS`: `none` when no row comes
back, `some none` when the row carries SQL NULL (the table is empty),
`some (some v)` when it carries a value. -/
abbrev MaxIdQueryResult := Option (Option ℕ)

/-- `get_max_customer_id`: `max_id` starts at `1` and is overwritten only
when `result and result[0]` is truthy — a missing row, a NULL value or the
value `0` all leave the default `1` in place.  Only a raised
connection/query error propagates (the bare `raise` in the `except`
block), modelled by an `Except.error` input. -/
def get_max_customer_id (query : Except String MaxIdQueryResult) :
    Except String ℕ :=
  match query with
  | .error e => .error e
  | .ok result =>
    .ok (match result with
      | some (some v) => if v = 0 then 1 else v
      | _ => 1)

/-- One instance's assignment as computed in `main`'s submission loop. -/
structure InstanceAssignment where
  instance_id : ℕ
  orders : ℕ
  cust_start : ℕ
  cust_end : ℕ
deriving DecidableEq, Repr

/-- The orchestrator's pre-ingestion phase: fetch the maximum customer id
(propagating only a query error), then assign every instance its order
quota and customer-id range.  The source has no code path that rejects the
fallback value `1`; the plan is built and the instances are submitted
regardless. -/
def orchestrator_plan (query : Except String MaxIdQueryResult)
    (total_orders num_instances : ℕ) :
    Except String (List InstanceAssignment) :=
  match get_max_customer_id query with
  | .error e => .error e
  | .ok max_customer_id =>
    .ok ((List.range num_instances).map (fun i =>
      { instance_id := i
        orders := orders_for_this_instance total_orders num_instances i
        cust_start := customer_id_start max_customer_id num_instances i
        cust_end := customer_id_end max_customer_id num_instances i }))

/-! ## Batch streaming driver (`parallel_streaming_orchestrator.py`,
`PartitionedStreamingApp.generate_and_stream_orders`) -/

/-- The per-batch retry loop `while retry_count <= max_retries`.
`ok attempt` tells whether the loop body — regenerate the batch, insert
orders, insert items — completes without an exception on that 0-based
attempt.  On success it reports the 1-based attempt number that succeeded
and the batch is counted once (`break`); on an exception `retry_count` is
incremented and, once it exceeds `max_retries`, the exception propagates
(`.error ()`).  `fuel = max_retries + 1 - retry_count` counts the attempts
still permitted; the fuel-0 entry case is unreachable from
`runBatchAttempts`. -/
def batchRetryGo (ok : ℕ → Bool) : ℕ → ℕ → Except Unit ℕ
  | 0, _ => .error ()
  | fuel + 1, attempt =>
    if ok attempt then .ok (attempt + 1)
    else if fuel = 0 then .error ()
    else batchRetryGo ok fuel (attempt + 1)

/-- One batch processed through its retry loop, entered with
`retry_count = 0`. -/
def runBatchAttempts (ok : ℕ → Bool) (max_retries : ℕ) : Except Unit ℕ :=
  batchRetryGo ok (max_retries + 1) 0

/-- The driver's outer `while processed_orders < num_orders` loop.
`ok b a` tells whether batch `b`'s body succeeds on attempt `a`.  Each
batch of size `min batch_size remaining` advances `processed_orders` by
its size exactly once, after its retry loop succeeds; a batch whose
retries exhaust propagates the failure and aborts the whole run.  `fuel`
bounds the number of loop iterations so the model is total; `none` marks
fuel exhaustion (with `batch_size ≥ 1`, fuel `num_orders` always
suffices, matching the real loop's termination). -/
def driveGo (ok : ℕ → ℕ → Bool) (num_orders batch_size max_retries : ℕ) :
    ℕ → ℕ → ℕ → Option (Except Unit ℕ)
  | fuel, batchIdx, processed =>
    if processed < num_orders then
      match fuel with
      | 0 => none
      | f + 1 =>
        match runBatchAttempts (ok batchIdx) max_retries with
        | .error _ => some (.error ())
        | .ok _ =>
          driveGo ok num_orders batch_size max_retries f (batchIdx + 1)
            (processed + min batch_size (num_orders - processed))
    else some (.ok processed)

/-- `generate_and_stream_orders`: the outer loop with the source's
`max_retries = 3`, entered with `processed_orders = 0` and fuel
`num_orders`. -/
def generate_and_stream_orders (ok : ℕ → ℕ → Bool)
    (num_orders batch_size : ℕ) : Option (Except Unit ℕ) :=
  driveGo ok num_orders batch_size 3 num_orders 0 0

/-- A concrete batch behaviour: every batch's insert fails with a
retryable error on its first two attempts and succeeds on the third. -/
def failTwiceThenOk : ℕ → ℕ → Bool := fun _ a => decide (2 ≤ a)

/-! ## Orchestrator result aggregation
(`parallel_streaming_orchestrator.py`, `main` and
`_run_streaming_instance`) -/

/-- The dict `_run_streaming_instance` returns. -/
structure InstanceResult where
  instance_id : ℕ
  orders_generated : ℕ
  duration_ms : ℕ
  success : Bool
deriving DecidableEq, Repr

/-- `_run_streaming_instance`, the partition boundary.  `outcome` is what
`app.generate_and_stream_orders` did for this partition: `.ok n` returned
`n`; `.error ()` raised after exhausting its retries.  The `except` block
catches the exception and turns it into a structured result with
`success = False` and the pre-call `orders_generated = 0`; a normal return
reports the full count with `success = True`.  Either way a result (never
an exception) crosses the partition boundary. -/
def run_streaming_instance (instance_id : ℕ) (outcome : Except Unit ℕ)
    (duration_ms : ℕ) : InstanceResult :=
  match outcome with
  | .ok n =>
    { instance_id := instance_id, orders_generated := n,
      duration_ms := duration_ms, success := true }
  | .error _ =>
    { instance_id := instance_id, orders_generated := 0,
      duration_ms := duration_ms, success := false }

/-- The submission loop `for i in range(num_instances)` paired with the
`as_completed` collection loop: one structured result per partition, each
produced from that partition's own outcome alone. -/
def collectResults (i : ℕ) : List (Except Unit ℕ × ℕ) → List InstanceResult
  | [] => []
  | od :: rest =>
    run_streaming_instance i od.1 od.2 :: collectResults (i + 1) rest

/-- `total_orders_generated`: the sum of successful workers' counts. -/
def total_orders_generated (results : List InstanceResult) : ℕ :=
  ((results.filter (fun r => r.success)).map
    (fun r => r.orders_generated)).sum

/-- `successful_instances`. -/
def successful_instances (results : List InstanceResult) : ℕ :=
  (results.filter (fun r => r.success)).length

/-- `failed_instances`. -/
def failed_instances (results : List InstanceResult) : ℕ :=
  (results.filter (fun r => !r.success)).length

/-- `main`'s terminal behaviour: a startup fault (the outer `except`)
exits with status 1 before any results exist; otherwise all partition
results are collected and the process exits with status 1 exactly when
`failed_instances > 0`, else 0.  Returns the exit status and the collected
results. -/
def orchestrator_main (startup : Except Unit (List (Except Unit ℕ × ℕ))) :
    ℕ × List InstanceResult :=
  match startup with
  | .error _ => (1, [])
  | .ok outcomes =>
    let results := collectResults 0 outcomes
    (if 0 < failed_instances results then 1 else 0, results)

/-! ## Record generator (`data_generator.py`)

Monetary values are computed in `decimal.Decimal` with `ROUND_HALF_UP` in
the source; they are embedded as exact rationals (the trailing `float()`
casts on the model constructors are abstracted away).  Identifiers and
timestamps (uuid4, `datetime.now()`) are irrelevant to the monetary
invariants and are abstracted; every random draw is an explicit
argument. -/

/-- `Decimal.quantize(Decimal("0.01"), rounding=ROUND_HALF_UP)`: round to
the nearest cent, ties away from zero. -/
def quantizeHalfUp2 (q : ℚ) : ℚ :=
  if 0 ≤ q then ((⌊q * 100 + 1 / 2⌋ : ℤ) : ℚ) / 100
  else -(((⌊-(q * 100) + 1 / 2⌋ : ℤ) : ℚ) / 100)

/-- `_random_decimal(min_val, max_val)` with the `random.random()` draw
`r`: `value = min_val + (max_val - min_val) * random.random()`, quantized
half-up to cents. -/
def random_decimal (min_val max_val r : ℚ) : ℚ :=
  quantizeHalfUp2 (min_val + (max_val - min_val) * r)

/-- The fields of a generated `Order` relevant to its monetary
invariants. -/
structure Order where
  customer_id : ℕ
  order_status : String
  total_amount : ℚ
  discount_percent : ℚ
  shipping_cost : ℚ
deriving DecidableEq, Repr

/-- The weighted order-status table (65/15/10/7/3 over
Completed/Shipped/Processing/Pending/Cancelled), keyed on one
`random.random()` draw. -/
def order_status_of (rand : ℚ) : String :=
  if rand < 65 / 100 then ("Completed")
  else if rand < 80 / 100 then ("Shipped")
  else if rand < 90 / 100 then ("Processing")
  else if rand < 97 / 100 then ("Pending")
  else ("Cancelled")

/-- `DataGenerator.generate_order(customer_id)`.  Random draws:
`status_rand = random.random()`,
`base_amount = random.lognormvariate(5.0, 1.2)` (always positive),
`amount_r` the `random.random()` inside `_random_decimal` for the total,
`discount_gate = random.randint(1, 10)` and
`discount_val = random.randint(5, 25)` for the discount,
`shipping_r` the draw for the shipping cost. -/
def generate_order (customer_id : ℕ) (status_rand base_amount amount_r : ℚ)
    (discount_gate discount_val : ℕ) (shipping_r : ℚ) : Order :=
  { customer_id := customer_id
    order_status := order_status_of status_rand
    total_amount :=
      random_decimal (max 10 base_amount) (max 50 (base_amount * (3 / 2)))
        amount_r
    discount_percent :=
      if 7 < discount_gate then (discount_val : ℚ) else 0
    shipping_cost := random_decimal 5 50 shipping_r }

/-- The fields of a generated `OrderItem` relevant to the line-total
law. -/
structure OrderItem where
  order_id : ℕ
  product_id : ℕ
  product_name : String
  product_category : String
  quantity : ℕ
  unit_price : ℚ
  line_total : ℚ
deriving DecidableEq, Repr

/-- `DataGenerator.PRODUCT_NAMES`. -/
def PRODUCT_NAMES : List String :=
  [("Powder Skis"), ("All-Mountain Skis"), ("Freestyle Snowboard"),
   ("Freeride Snowboard"), ("Ski Boots"), ("Snowboard Boots"),
   ("Ski Poles"), ("Ski Goggles"), ("Snowboard Bindings"), ("Ski Helmet")]

/-- `DataGenerator.PRODUCT_CATEGORIES`. -/
def PRODUCT_CATEGORIES : List String :=
  [("Skis"), ("Skis"), ("Snowboards"), ("Snowboards"), ("Boots"),
   ("Boots"), ("Accessories"), ("Accessories"), ("Accessories"),
   ("Accessories")]

/-- The random draws one loop iteration of `generate_order_items`
consumes: `product_index = random.randint(0, 9)`,
`quantity = random.randint(1, 5)`, and the `random.random()` inside
`_random_decimal(10.0, 500.0)`. -/
structure ItemDraw where
  product_index : ℕ
  quantity : ℕ
  price_r : ℚ
deriving DecidableEq, Repr

/-- One iteration of the `generate_order_items` loop body:
`line_total = (unit_price * Decimal(quantity)).quantize(Decimal("0.01"),
rounding=ROUND_HALF_UP)`. -/
def generate_order_item (order_id : ℕ) (d : ItemDraw) : OrderItem :=
  { order_id := order_id
    product_id := 1001 + d.product_index
    product_name := PRODUCT_NAMES.getD d.product_index ("")
    product_category := PRODUCT_CATEGORIES.getD d.product_index ("")
    quantity := d.quantity
    unit_price := random_decimal 10 500 d.price_r
    line_total :=
      quantizeHalfUp2 (random_decimal 10 500 d.price_r * (d.quantity : ℚ)) }

/-- `DataGenerator.generate_order_items(order_id, count)`, with the loop's
random draws supplied per index. -/
def generate_order_items (order_id : ℕ) (count : ℕ)
    (draws : ℕ → ItemDraw) : List OrderItem :=
  (List.range count).map (fun i => generate_order_item order_id (draws i))

/-- The monetary invariant claimed for every generated order:
non-negative total and shipping, discount within `[0, 25]`, and the two
currency fields fixed by half-up 2-decimal rounding
(`round(x, 2) == x`). -/
def OrderMonetaryInvariant (o : Order) : Prop :=
  0 ≤ o.total_amount ∧ 0 ≤ o.shipping_cost ∧
    0 ≤ o.discount_percent ∧ o.discount_percent ≤ 25 ∧
    quantizeHalfUp2 o.total_amount = o.total_amount ∧
    quantizeHalfUp2 o.shipping_cost = o.shipping_cost

/-! ## Channel wrapper insert entry points
(`snowpipe_streaming_manager.py`, `insert_orders` / `insert_order_items`) -/

/-- One `append_rows` call as the wrapper issues it: the row count and the
offset-token range derived from the first and last element. -/
structure AppendCall where
  rows : ℕ
  start_offset : String
  end_offset : String
deriving DecidableEq, Repr

/-- The observable state of one streaming channel: the `append_rows` calls
made so far and the committed-offset watermark
(`get_latest_committed_offset_token`). -/
structure ChannelState where
  appendCalls : List AppendCall
  committedOffset : Option String
deriving DecidableEq, Repr

/-- An order as `insert_orders` consumes it: only `order_id` matters for
the offset tokens. -/
structure OrderRecord where
  order_id : String
deriving DecidableEq, Repr

/-- An order item as `insert_order_items` consumes it. -/
structure ItemRecord where
  order_item_id : String
deriving DecidableEq, Repr

/-- `insert_orders`: `if not orders: return` — an empty list returns at
once with the channel untouched and nothing appended; only for a
non-empty list are `orders[0]` and `orders[-1]` read to build
`order_{id}` offset tokens and the (fallible) retrying append invoked. -/
def insert_orders
    (append : ChannelState → AppendCall → Except String ChannelState)
    (orders : List OrderRecord) (ch : ChannelState) :
    Except String ChannelState :=
  match orders with
  | [] => .ok ch
  | o :: rest =>
    append ch
      { rows := (o :: rest).length
        start_offset := ("order_") ++ o.order_id
        end_offset :=
          ("order_") ++ ((o :: rest).getLast (List.cons_ne_nil o rest)).order_id }

/-- `insert_order_items`: the same guard for the items channel, with
`item_{id}` offset tokens. -/
def insert_order_items
    (append : ChannelState → AppendCall → Except String ChannelState)
    (items : List ItemRecord) (ch : ChannelState) :
    Except String ChannelState :=
  match items with
  | [] => .ok ch
  | it :: rest =>
    append ch
      { rows := (it :: rest).length
        start_offset := ("item_") ++ it.order_item_id
        end_offset :=
          ("item_")
            ++ ((it :: rest).getLast (List.cons_ne_nil it rest)).order_item_id }

end AutomatedIntelligence

namespace AutomatedIntelligence

/-! ## Shared lemmas -/

/-- The rows a delete removes are the rows its `WHERE` clause matches: for
any predicate, (old length) − (kept length) = (matched length). -/
theorem length_sub_length_filter (l : List α) (p : α → Bool) :
    l.length - (l.filter p).length = (l.filter (fun a => !p a)).length := by
  induction l with
  | nil => rfl
  | cons a l ih =>
    by_cases h : p a = true <;>
      simp [List.filter_cons, h, ih, Nat.succ_sub (List.length_filter_le p l)]

/-! ## Claims C1, C2, C3 -/

/-- Claim C1: refuted on the code.  In the state `exactDupState` the order
id `1` occurs in two rows (an exact duplicate), yet the duplicate-cleanup
step of `reconcile_and_cleanup` deletes BOTH rows — the delete keys on the
`(order_id, order_date, total_amount)` triple, and the row the window
function ranked first carries the same triple as the row ranked second —
so order id `1` is present in zero rows afterwards, not exactly one. -/
theorem reconcile_deletes_every_copy_of_exact_duplicate :
    (exactDupState.orders.countP (fun o => o.order_id == 1)) = 2 ∧
      (reconcile_and_cleanup exactDupState).2.orders = [] := by
  constructor <;> rfl

/-- Claim C2: refuted on the code.  Running `reconcile_and_cleanup` on
`exactDupState` and then running it again on the resulting tables (no
ingestion in between) reports one orphaned item found and deleted on the
second run: the first run's duplicate cleanup removed every copy of order
`1`, orphaning its item, which only the second run deletes. -/
theorem reconcile_second_run_not_clean :
    (reconcile_and_cleanup (reconcile_and_cleanup exactDupState).2).1.orphaned_items_found
        = 1 ∧
      (reconcile_and_cleanup (reconcile_and_cleanup exactDupState).2).1.orphaned_items_deleted
        = 1 := by
  constructor <;> rfl

/-- Claim C3, counterexample: on `exactDupState` the reported duplicate
count is 1 (the pre-delete `COUNT(*) - COUNT(DISTINCT order_id)` query) but
the delete statement removes 2 rows, so `found ≠ deleted` for the
duplicate-orders category. -/
theorem duplicate_found_ne_deleted :
    (reconcile_and_cleanup exactDupState).1.duplicate_orders_found = 1 ∧
      (reconcile_and_cleanup exactDupState).1.duplicate_orders_deleted = 2 := by
  constructor <;> rfl

/-! ## Claim C4 -/

/-- The per-instance order quotas sum to exactly the requested total. -/
theorem sum_orders_quota (T N : ℕ) (hN : 1 ≤ N) :
    (Finset.range N).sum (orders_for_this_instance T N) = T := by
  obtain ⟨M, rfl⟩ : ∃ M, N = M + 1 := ⟨N - 1, by omega⟩
  have hM1 : M + 1 - 1 = M := rfl
  have hq : T / (M + 1) * M ≤ T :=
    le_trans (mul_le_mul_left' (by omega : M ≤ M + 1) _)
      (Nat.div_mul_le_self T (M + 1))
  rw [Finset.sum_range_succ,
    Finset.sum_congr rfl (fun i hi => by
      rw [orders_for_this_instance,
        if_neg (by have := Finset.mem_range.mp hi; omega : ¬ i = M + 1 - 1)]),
    Finset.sum_const, Finset.card_range, smul_eq_mul,
    orders_for_this_instance, if_pos hM1.symm, orders_per_instance,
    Nat.mul_comm M (T / (M + 1)), Nat.add_sub_cancel' hq]

/-- Claim C4: for every total order count `T`, maximum customer id `C ≥ 1`
and instance count `N` with `1 ≤ N ≤ C`, the orchestrator's partition plan
gives the first `N-1` instances `floor(T/N)` orders each and the last
instance the remainder so the quotas sum to exactly `T`, and the customer-id
ranges are contiguous, pairwise disjoint and cover exactly `[1, C]`. -/
theorem partition_plan_correct (T C N : ℕ) (hN : 1 ≤ N) (hNC : N ≤ C) :
    PartitionPlanSpec T C N := by
  obtain ⟨M, rfl⟩ : ∃ M, N = M + 1 := ⟨N - 1, by omega⟩
  have hM1 : M + 1 - 1 = M := rfl
  have hrs1 : 1 ≤ customer_range_size C (M + 1) :=
    (Nat.one_le_div_iff (by omega)).mpr hNC
  have hrsC : (M + 1) * customer_range_size C (M + 1) ≤ C := by
    rw [Nat.mul_comm]; exact Nat.div_mul_le_self C (M + 1)
  refine ⟨?_, ?_, ?_, ?_, ?_, ?_, ?_, ?_, ?_⟩
  · intro i hi
    rw [orders_for_this_instance, if_neg (by omega : ¬ i = M + 1 - 1)]
    rfl
  · rw [orders_for_this_instance, if_pos rfl, hM1, orders_per_instance,
      Nat.mul_comm]
  · exact sum_orders_quota T (M + 1) (by omega)
  · rw [customer_id_start, Nat.zero_mul]
  · intro i hi
    rw [customer_id_end, if_neg (by omega : ¬ i = M + 1 - 1), customer_id_start]
  · rw [customer_id_end, if_pos rfl]
  · intro i hi
    by_cases h : i = M + 1 - 1
    · rw [customer_id_start, customer_id_end, if_pos h,
        (by omega : i = M)]
      have h2 : M * customer_range_size C (M + 1)
          + customer_range_size C (M + 1) ≤ C := by
        rw [← Nat.succ_mul]; exact hrsC
      linarith
    · rw [customer_id_start, customer_id_end, if_neg h, Nat.succ_mul]
      exact Nat.add_le_add_left hrs1 _
  · intro i j hij hjN
    rw [customer_id_end, if_neg (by omega : ¬ i = M + 1 - 1), customer_id_start]
    exact Nat.lt_succ_of_le (mul_le_mul_right' (by omega : i + 1 ≤ j) _)
  · intro k
    constructor
    · rintro ⟨hk1, hkC⟩
      obtain ⟨k', rfl⟩ : ∃ k', k = k' + 1 := ⟨k - 1, by omega⟩
      have hdm : k' / customer_range_size C (M + 1)
            * customer_range_size C (M + 1)
          + k' % customer_range_size C (M + 1) = k' := by
        rw [Nat.mul_comm]; exact Nat.div_add_mod k' _
      have hmod : k' % customer_range_size C (M + 1)
          < customer_range_size C (M + 1) := Nat.mod_lt _ (by omega)
      by_cases hd : k' / customer_range_size C (M + 1) < M
      · refine ⟨k' / customer_range_size C (M + 1), by omega, ?_, ?_⟩
        · rw [customer_id_start]
          exact Nat.add_le_add_right (Nat.div_mul_le_self k' _) 1
        · rw [customer_id_end, if_neg (by omega : ¬ _ = M + 1 - 1), Nat.succ_mul]
          linarith
      · refine ⟨M, by omega, ?_, ?_⟩
        · rw [customer_id_start]
          have h3 : M * customer_range_size C (M + 1)
              ≤ k' / customer_range_size C (M + 1)
                * customer_range_size C (M + 1) :=
            mul_le_mul_right' (by omega) _
          have h4 := Nat.div_mul_le_self k' (customer_range_size C (M + 1))
          exact Nat.add_le_add_right (le_trans h3 h4) 1
        · rw [customer_id_end, if_pos hM1.symm]
          exact hkC
    · rintro ⟨i, hiN, h1, h2⟩
      refine ⟨le_trans (Nat.le_add_left 1 _) h1, le_trans h2 ?_⟩
      by_cases h : i = M + 1 - 1
      · rw [customer_id_end, if_pos h]
      · rw [customer_id_end, if_neg h]
        exact le_trans (mul_le_mul_right' (by omega : i + 1 ≤ M + 1) _) hrsC

/-- Claim C4, witness: the partition plan property holds at the concrete
instance of 10 total orders, 7 customers and 3 instances. -/
theorem partition_plan_correct_witness :
    1 ≤ 3 ∧ 3 ≤ 7 ∧ PartitionPlanSpec 10 7 3 :=
  ⟨by decide, by decide, partition_plan_correct 10 7 3 (by decide) (by decide)⟩

/-! ## Claim C5 -/

/-- One unfolding step of the retry loop. -/
theorem insertRetryGo_step (b : ℕ → AppendOutcome) (M : ℚ) (r a : ℕ)
    (d : ℚ) :
    insertRetryGo b M (r + 1) a d =
      match b a with
      | .ok => { attempts := 1, sleeps := [], outcome := .returned }
      | .ingestErr msg =>
        if isBackpressureMsg msg then
          if 0 < r then
            let t := insertRetryGo b M r (a + 1) (min (d * 2) M)
            { attempts := t.attempts + 1, sleeps := d :: t.sleeps,
              outcome := t.outcome }
          else { attempts := 1, sleeps := [], outcome := .raisedIngest msg }
        else { attempts := 1, sleeps := [], outcome := .raisedIngest msg }
      | .otherErr => { attempts := 1, sleeps := [], outcome := .raisedOther }
    := rfl

/-- The retry loop performs at most as many `append_rows` attempts as it
has loop iterations left. -/
theorem insertRetryGo_attempts_le (b : ℕ → AppendOutcome) (M : ℚ) :
    ∀ r a d, (insertRetryGo b M r a d).attempts ≤ r := by
  intro r
  induction r with
  | zero => intro a d; exact Nat.le_refl 0
  | succ r ih =>
    intro a d
    rw [insertRetryGo_step]
    cases hb : b a with
    | ok => simp
    | ingestErr msg =>
      by_cases hbp : isBackpressureMsg msg
      · by_cases hr : 0 < r
        · simp only [hbp, hr, if_true]
          exact Nat.succ_le_succ (ih (a + 1) _)
        · simp [hbp, hr]
      · simp [hbp]
    | otherErr => simp

/-- Every attempt after the first is preceded by exactly one sleep. -/
theorem insertRetryGo_sleeps_length (b : ℕ → AppendOutcome) (M : ℚ) :
    ∀ r a d, 1 ≤ r →
      (insertRetryGo b M r a d).sleeps.length + 1
        = (insertRetryGo b M r a d).attempts := by
  intro r
  induction r with
  | zero => intro a d h; omega
  | succ r ih =>
    intro a d _
    rw [insertRetryGo_step]
    cases hb : b a with
    | ok => simp
    | ingestErr msg =>
      by_cases hbp : isBackpressureMsg msg
      · by_cases hr : 0 < r
        · simp only [hbp, hr, if_true, List.length_cons]
          rw [ih (a + 1) _ hr]
        · simp [hbp, hr]
      · simp [hbp]
    | otherErr => simp

/-- The delays actually slept are an initial segment of the doubling,
capped backoff sequence. -/
theorem insertRetryGo_sleeps_isPrefix (b : ℕ → AppendOutcome) (M : ℚ) :
    ∀ r a d, (insertRetryGo b M r a d).sleeps <+: backoffDelays M r d := by
  intro r
  induction r with
  | zero => intro a d; exact List.nil_prefix
  | succ r ih =>
    intro a d
    rw [insertRetryGo_step]
    cases hb : b a with
    | ok => simp [List.nil_prefix]
    | ingestErr msg =>
      by_cases hbp : isBackpressureMsg msg
      · by_cases hr : 0 < r
        · obtain ⟨r', rfl⟩ : ∃ r', r = r' + 1 := ⟨r - 1, by omega⟩
          simp only [hbp, hr, if_true]
          obtain ⟨u, hu⟩ := ih (a + 1) (min (d * 2) M)
          refine ⟨u, ?_⟩
          rw [backoffDelays, List.cons_append, hu]
        · simp [hbp, hr, List.nil_prefix]
      · simp [hbp, List.nil_prefix]
    | otherErr => simp [List.nil_prefix]

/-- A further attempt is made only after a backpressure-classified
`StreamingIngestError`: every non-final attempt raised one. -/
theorem insertRetryGo_retries_only_backpressure (b : ℕ → AppendOutcome)
    (M : ℚ) :
    ∀ r a d j, j + 1 < (insertRetryGo b M r a d).attempts →
      ∃ msg, b (a + j) = .ingestErr msg ∧ isBackpressureMsg msg = true := by
  intro r
  induction r with
  | zero => intro a d j h; simp [insertRetryGo] at h
  | succ r ih =>
    intro a d j h
    rw [insertRetryGo_step] at h
    cases hb : b a with
    | ok => rw [hb] at h; simp at h
    | ingestErr msg =>
      rw [hb] at h
      by_cases hbp : isBackpressureMsg msg
      · by_cases hr : 0 < r
        · simp only [hbp, hr, if_true] at h
          cases j with
          | zero => exact ⟨msg, by simpa using hb, hbp⟩
          | succ j' =>
            have := ih (a + 1) (min (d * 2) M) j' (by simp at h; omega)
            simpa [Nat.add_assoc, Nat.add_comm 1 j'] using this
        · simp [hbp, hr] at h
      · simp [hbp] at h
    | otherErr => rw [hb] at h; simp at h

/-- A non-backpressure `StreamingIngestError` ends the loop on the attempt
that raised it: it is re-raised at once and no later attempt happens. -/
theorem insertRetryGo_nonbp_raises (b : ℕ → AppendOutcome) (M : ℚ) :
    ∀ r a d k msg, k < (insertRetryGo b M r a d).attempts →
      b (a + k) = .ingestErr msg → isBackpressureMsg msg = false →
      (insertRetryGo b M r a d).attempts = k + 1 ∧
        (insertRetryGo b M r a d).outcome = .raisedIngest msg := by
  intro r
  induction r with
  | zero => intro a d k msg h _ _; simp [insertRetryGo] at h
  | succ r ih =>
    intro a d k msg h hk hbad
    rw [insertRetryGo_step] at h ⊢
    cases hb : b a with
    | ok =>
      rw [hb] at h
      have h1 : k < 1 := h
      obtain rfl : k = 0 := by omega
      rw [Nat.add_zero, hb] at hk
      exact absurd hk (by simp)
    | ingestErr msg' =>
      rw [hb] at h
      by_cases hbp : isBackpressureMsg msg'
      · by_cases hr : 0 < r
        · simp only [hbp, hr, if_true] at h ⊢
          cases k with
          | zero =>
            rw [Nat.add_zero, hb] at hk
            obtain rfl : msg' = msg := by injection hk
            rw [hbp] at hbad
            exact absurd hbad (by simp)
          | succ k' =>
            have harg : b (a + 1 + k') = AppendOutcome.ingestErr msg := by
              rw [← hk]; congr 1; omega
            have hrec := ih (a + 1) (min (d * 2) M) k' msg (by omega) harg hbad
            exact ⟨by omega, hrec.2⟩
        · simp only [hbp, hr, if_true, if_false] at h ⊢
          obtain rfl : k = 0 := by omega
          rw [Nat.add_zero, hb] at hk
          obtain rfl : msg' = msg := by injection hk
          rw [hbp] at hbad
          exact absurd hbad (by simp)
      · simp only [hbp, Bool.false_eq_true, if_false] at h ⊢
        obtain rfl : k = 0 := by omega
        rw [Nat.add_zero, hb] at hk
        obtain rfl : msg' = msg := by injection hk
        exact ⟨rfl, rfl⟩
    | otherErr =>
      rw [hb] at h
      have h1 : k < 1 := h
      obtain rfl : k = 0 := by omega
      rw [Nat.add_zero, hb] at hk
      exact absurd hk (by simp)

/-- Claim C5: under the source's default parameters the wrapper makes at
most 5 attempts; its sleep delays are an initial segment of `[1, 2, 4, 8]`
(starting at 1 s, doubling, below the 30 s cap), hence non-decreasing and
never above the cap, with exactly one sleep before each retry; every
retry follows a backpressure-classified error; and a
non-backpressure ingest error is re-raised on the attempt that produced
it, with no further attempt and no sleep after it. -/
theorem backpressure_retry_contract (behavior : ℕ → AppendOutcome) :
    (retryTraceOf behavior).attempts ≤ 5 ∧
      (retryTraceOf behavior).sleeps <+: [1, 2, 4, 8] ∧
      (retryTraceOf behavior).sleeps.length + 1
        = (retryTraceOf behavior).attempts ∧
      List.Chain' (· ≤ ·) (retryTraceOf behavior).sleeps ∧
      (∀ d ∈ (retryTraceOf behavior).sleeps, d ≤ 30) ∧
      (∀ j, j + 1 < (retryTraceOf behavior).attempts →
        ∃ msg, behavior j = .ingestErr msg ∧ isBackpressureMsg msg = true) ∧
      (∀ k msg, k < (retryTraceOf behavior).attempts →
        behavior k = .ingestErr msg → isBackpressureMsg msg = false →
        (retryTraceOf behavior).attempts = k + 1 ∧
          (retryTraceOf behavior).outcome = .raisedIngest msg ∧
          (retryTraceOf behavior).sleeps.length = k) := by
  have hbd : backoffDelays 30 5 1 = [1, 2, 4, 8] := by
    norm_num [backoffDelays]
  have hp : (retryTraceOf behavior).sleeps <+: [1, 2, 4, 8] := by
    rw [← hbd]
    exact insertRetryGo_sleeps_isPrefix behavior 30 5 0 1
  have hlen : (retryTraceOf behavior).sleeps.length + 1
      = (retryTraceOf behavior).attempts :=
    insertRetryGo_sleeps_length behavior 30 5 0 1 (by omega)
  have hchain : List.Chain' (· ≤ ·) ([1, 2, 4, 8] : List ℚ) := by
    norm_num [List.chain'_cons]
  refine ⟨insertRetryGo_attempts_le behavior 30 5 0 1, hp, hlen,
    hchain.sublist hp.sublist, ?_, ?_, ?_⟩
  · intro d hd
    have hmem := hp.sublist.subset hd
    simp only [List.mem_cons, List.not_mem_nil, or_false] at hmem
    rcases hmem with rfl | rfl | rfl | rfl <;> norm_num
  · intro j hj
    simpa using insertRetryGo_retries_only_backpressure behavior 30 5 0 1 j hj
  · intro k msg hk hbk hbad
    have h := insertRetryGo_nonbp_raises behavior 30 5 0 1 k msg hk
      (by simpa using hbk) hbad
    have h1 : (retryTraceOf behavior).attempts = k + 1 := h.1
    exact ⟨h1, h.2, by omega⟩

/-- Claim C5, witness: the wrapper contract instantiated at the concrete
behaviour that saturates twice and then succeeds. -/
theorem backpressure_retry_contract_witness :
    (retryTraceOf saturatedTwiceThenOk).attempts ≤ 5 ∧
      (retryTraceOf saturatedTwiceThenOk).sleeps <+: [1, 2, 4, 8] ∧
      (retryTraceOf saturatedTwiceThenOk).sleeps.length + 1
        = (retryTraceOf saturatedTwiceThenOk).attempts ∧
      List.Chain' (· ≤ ·) (retryTraceOf saturatedTwiceThenOk).sleeps ∧
      (∀ d ∈ (retryTraceOf saturatedTwiceThenOk).sleeps, d ≤ 30) ∧
      (∀ j, j + 1 < (retryTraceOf saturatedTwiceThenOk).attempts →
        ∃ msg, saturatedTwiceThenOk j = .ingestErr msg ∧
          isBackpressureMsg msg = true) ∧
      (∀ k msg, k < (retryTraceOf saturatedTwiceThenOk).attempts →
        saturatedTwiceThenOk k = .ingestErr msg →
        isBackpressureMsg msg = false →
        (retryTraceOf saturatedTwiceThenOk).attempts = k + 1 ∧
          (retryTraceOf saturatedTwiceThenOk).outcome = .raisedIngest msg ∧
          (retryTraceOf saturatedTwiceThenOk).sleeps.length = k) :=
  backpressure_retry_contract saturatedTwiceThenOk

/-! ## Claim C6 -/

/-- Claim C6, counterexample: when the MAX-customer-id query returns a row
holding SQL NULL (empty customer table), the code does NOT fail: it
silently returns the fallback `1`, and the orchestrator proceeds to build a
full ingestion plan — here 10 orders for one instance over the degenerate
customer range `[1, 1]` — so ingestion work does begin. -/
theorem empty_customer_table_not_rejected :
    get_max_customer_id (Except.ok (some none)) = Except.ok 1 ∧
      orchestrator_plan (Except.ok (some none)) 10 1
        = Except.ok [{ instance_id := 0, orders := 10,
                       cust_start := 1, cust_end := 1 }] :=
  ⟨rfl, rfl⟩

/-- Claim C6, amended: when the source-of-truth customer table is empty
(the max-customer-id query returns a NULL value), `get_max_customer_id`
does not raise: it falls back to the default `1`, and the orchestrator
proceeds to assign the full requested order count across its instances
(customer range `[1, 1]`); no precondition error is surfaced and ingestion
is not prevented.  Only a raised connection/query error propagates. -/
theorem empty_customer_table_falls_back (T N : ℕ) (hN : 1 ≤ N) :
    get_max_customer_id (Except.ok (some none)) = Except.ok 1 ∧
      ∃ plan, orchestrator_plan (Except.ok (some none)) T N = Except.ok plan ∧
        plan.length = N ∧
        (plan.map (fun ia => ia.orders)).sum = T ∧
        (∀ e, get_max_customer_id (Except.error e) = Except.error e) := by
  refine ⟨rfl, (List.range N).map (fun i =>
      { instance_id := i
        orders := orders_for_this_instance T N i
        cust_start := customer_id_start 1 N i
        cust_end := customer_id_end 1 N i }), rfl, by simp, ?_, fun e => rfl⟩
  rw [List.map_map]
  show ((List.range N).map (orders_for_this_instance T N)).sum = T
  show (Finset.range N).sum (orders_for_this_instance T N) = T
  exact sum_orders_quota T N hN

/-- Claim C6, witness: the amended claim instantiated at 10 total orders
and 1 instance. -/
theorem empty_customer_table_falls_back_witness :
    1 ≤ 1 ∧
      (get_max_customer_id (Except.ok (some none)) = Except.ok 1 ∧
        ∃ plan,
          orchestrator_plan (Except.ok (some none)) 10 1 = Except.ok plan ∧
            plan.length = 1 ∧
            (plan.map (fun ia => ia.orders)).sum = 10 ∧
            (∀ e, get_max_customer_id (Except.error e) = Except.error e)) :=
  ⟨by decide, empty_customer_table_falls_back 10 1 (by decide)⟩

/-! ## Claim C7 -/

/-- If every batch's retry loop succeeds, the driver runs to completion
and reports exactly `num_orders` processed — each batch counted once. -/
theorem driveGo_all_ok (ok : ℕ → ℕ → Bool)
    (num_orders batch_size max_retries : ℕ) (hbs : 1 ≤ batch_size)
    (hall : ∀ b, ∃ n, runBatchAttempts (ok b) max_retries = .ok n) :
    ∀ fuel batchIdx processed, processed ≤ num_orders →
      num_orders - processed ≤ fuel →
      driveGo ok num_orders batch_size max_retries fuel batchIdx processed
        = some (.ok num_orders) := by
  intro fuel
  induction fuel with
  | zero =>
    intro bi p hp hf
    obtain rfl : p = num_orders := by omega
    rw [driveGo, if_neg (lt_irrefl p)]
  | succ f ih =>
    intro bi p hp hf
    by_cases h : p < num_orders
    · obtain ⟨n, hn⟩ := hall bi
      rw [driveGo, if_pos h]
      simp only [hn]
      exact ih (bi + 1) (p + min batch_size (num_orders - p)) (by omega)
        (by omega)
    · obtain rfl : p = num_orders := by omega
      rw [driveGo, if_neg h]

/-- Claim C7: with the driver's `max_retries = 3`, a batch body that fails
with a retryable error on its first two attempts and succeeds on the third
makes the retry loop report success on the 3rd attempt, and the whole run
completes with `processed_orders = num_orders` — every batch advances the
counter by its size exactly once, never three times.  And with a first
batch whose attempts all fail, the driver propagates the failure and
aborts the run instead of skipping the batch. -/
theorem driver_retry_and_abort (num_orders batch_size : ℕ)
    (hbs : 1 ≤ batch_size) :
    runBatchAttempts (failTwiceThenOk 0) 3 = .ok 3 ∧
      generate_and_stream_orders failTwiceThenOk num_orders batch_size
        = some (.ok num_orders) ∧
      (∀ ok : ℕ → ℕ → Bool, (∀ a, ok 0 a = false) → 1 ≤ num_orders →
        generate_and_stream_orders ok num_orders batch_size
          = some (.error ())) := by
  refine ⟨rfl, ?_, ?_⟩
  · exact driveGo_all_ok failTwiceThenOk num_orders batch_size 3 hbs
      (fun b => ⟨3, rfl⟩) num_orders 0 0 (by omega) (by omega)
  · intro ok h0 hn
    have herr : runBatchAttempts (ok 0) 3 = .error () := by
      simp [runBatchAttempts, batchRetryGo, h0]
    obtain ⟨f, rfl⟩ : ∃ f, num_orders = f + 1 := ⟨num_orders - 1, by omega⟩
    rw [generate_and_stream_orders, driveGo, if_pos (by omega : 0 < f + 1)]
    simp only [herr]

/-- Claim C7, witness: the driver contract at 5 orders with batch size 2. -/
theorem driver_retry_and_abort_witness :
    1 ≤ 2 ∧
      (runBatchAttempts (failTwiceThenOk 0) 3 = .ok 3 ∧
        generate_and_stream_orders failTwiceThenOk 5 2 = some (.ok 5) ∧
        (∀ ok : ℕ → ℕ → Bool, (∀ a, ok 0 a = false) → 1 ≤ 5 →
          generate_and_stream_orders ok 5 2 = some (.error ()))) :=
  ⟨by decide, driver_retry_and_abort 5 2 (by decide)⟩

/-! ## Claim C8 -/

/-- Splitting a list by a predicate preserves its length. -/
theorem length_filter_add_length_filter_not (l : List α) (p : α → Bool) :
    (l.filter p).length + (l.filter (fun a => !p a)).length = l.length := by
  induction l with
  | nil => rfl
  | cons a l ih =>
    cases h : p a <;> simp [List.filter_cons, h] <;> omega

/-- One result is collected per submitted partition. -/
theorem collectResults_length :
    ∀ (l : List (Except Unit ℕ × ℕ)) (j : ℕ),
      (collectResults j l).length = l.length := by
  intro l
  induction l with
  | nil => intro j; rfl
  | cons od rest ih => intro j; simp [collectResults, ih]

/-- The result at position `i` is computed from partition `i`'s own
outcome alone. -/
theorem collectResults_getElem :
    ∀ (l : List (Except Unit ℕ × ℕ)) (j i : ℕ),
      (collectResults j l)[i]?
        = (l[i]?).map (fun od => run_streaming_instance (j + i) od.1 od.2) := by
  intro l
  induction l with
  | nil => intro j i; simp [collectResults]
  | cons od rest ih =>
    intro j i
    cases i with
    | zero => simp [collectResults]
    | succ i' =>
      simp only [collectResults, List.getElem?_cons_succ, ih (j + 1) i']
      rw [show j + 1 + i' = j + (i' + 1) from by omega]

/-- A collected result is successful exactly when its own outcome was. -/
theorem collectResults_successful :
    ∀ (l : List (Except Unit ℕ × ℕ)) (j : ℕ),
      successful_instances (collectResults j l)
        = (l.filter (fun od => od.1.isOk)).length := by
  intro l
  induction l with
  | nil => intro j; rfl
  | cons od rest ih =>
    intro j
    obtain ⟨o, dur⟩ := od
    have hr := ih (j + 1)
    simp only [successful_instances] at hr ⊢
    cases o with
    | ok n =>
      simp [collectResults, run_streaming_instance, List.filter_cons,
        Except.isOk, Except.toBool, hr]
    | error e =>
      simp [collectResults, run_streaming_instance, List.filter_cons,
        Except.isOk, Except.toBool, hr]

/-- A collected result is failed exactly when its own outcome raised. -/
theorem collectResults_failed :
    ∀ (l : List (Except Unit ℕ × ℕ)) (j : ℕ),
      failed_instances (collectResults j l)
        = (l.filter (fun od => !od.1.isOk)).length := by
  intro l
  induction l with
  | nil => intro j; rfl
  | cons od rest ih =>
    intro j
    obtain ⟨o, dur⟩ := od
    have hr := ih (j + 1)
    simp only [failed_instances] at hr ⊢
    cases o with
    | ok n =>
      simp [collectResults, run_streaming_instance, List.filter_cons,
        Except.isOk, Except.toBool, hr]
    | error e =>
      simp [collectResults, run_streaming_instance, List.filter_cons,
        Except.isOk, Except.toBool, hr]

/-- The aggregated order total is the sum of the successful outcomes'
counts. -/
theorem collectResults_total :
    ∀ (l : List (Except Unit ℕ × ℕ)) (j : ℕ),
      total_orders_generated (collectResults j l)
        = (l.filterMap (fun od => od.1.toOption)).sum := by
  intro l
  induction l with
  | nil => intro j; rfl
  | cons od rest ih =>
    intro j
    obtain ⟨o, dur⟩ := od
    have hr := ih (j + 1)
    simp only [total_orders_generated] at hr ⊢
    cases o with
    | ok n =>
      simp [collectResults, run_streaming_instance, List.filter_cons,
        List.filterMap_cons, Except.toOption, hr]
    | error e =>
      simp [collectResults, run_streaming_instance, List.filter_cons,
        List.filterMap_cons, Except.toOption, hr]

/-- Claim C8: a partition whose driver raises is caught at the partition
boundary and becomes a structured result (`success = false`, order count
0, duration recorded) computed from that partition's outcome alone, so
sibling partitions' results are untouched and report their full counts;
one result is collected per partition; the successful and failed counts
partition the instances; the order total sums the successful outcomes;
and the exit status is non-zero iff some partition failed, while a
startup fault exits 1 with no results. -/
theorem orchestrator_aggregation (outcomes : List (Except Unit ℕ × ℕ)) :
    ((orchestrator_main (Except.ok outcomes)).2.length = outcomes.length) ∧
      (∀ i, ((orchestrator_main (Except.ok outcomes)).2)[i]?
        = (outcomes[i]?).map (fun od => run_streaming_instance i od.1 od.2)) ∧
      (∀ id n dur, run_streaming_instance id (Except.ok n) dur
        = { instance_id := id, orders_generated := n,
            duration_ms := dur, success := true }) ∧
      (∀ id dur, run_streaming_instance id (Except.error ()) dur
        = { instance_id := id, orders_generated := 0,
            duration_ms := dur, success := false }) ∧
      (successful_instances (orchestrator_main (Except.ok outcomes)).2
        = (outcomes.filter (fun od => od.1.isOk)).length) ∧
      (failed_instances (orchestrator_main (Except.ok outcomes)).2
        = (outcomes.filter (fun od => !od.1.isOk)).length) ∧
      (successful_instances (orchestrator_main (Except.ok outcomes)).2
          + failed_instances (orchestrator_main (Except.ok outcomes)).2
        = outcomes.length) ∧
      (total_orders_generated (orchestrator_main (Except.ok outcomes)).2
        = (outcomes.filterMap (fun od => od.1.toOption)).sum) ∧
      ((orchestrator_main (Except.ok outcomes)).1 ≠ 0 ↔
        0 < failed_instances (orchestrator_main (Except.ok outcomes)).2) ∧
      (∀ e, orchestrator_main (Except.error e) = (1, [])) := by
  refine ⟨collectResults_length outcomes 0, ?_, fun id n dur => rfl,
    fun id dur => rfl, collectResults_successful outcomes 0,
    collectResults_failed outcomes 0, ?_, collectResults_total outcomes 0,
    ?_, fun e => rfl⟩
  · intro i
    simpa using collectResults_getElem outcomes 0 i
  · show successful_instances (collectResults 0 outcomes)
        + failed_instances (collectResults 0 outcomes) = outcomes.length
    rw [collectResults_successful outcomes 0, collectResults_failed outcomes 0]
    exact length_filter_add_length_filter_not outcomes _
  · show (if 0 < failed_instances (collectResults 0 outcomes) then 1 else 0)
        ≠ 0 ↔ 0 < failed_instances (collectResults 0 outcomes)
    by_cases h : 0 < failed_instances (collectResults 0 outcomes) <;>
      simp [h]

/-- Claim C8, witness: three partitions where the second exhausts its
retries; the siblings still report their full 100-order counts, the run
aggregates `successful_instances = 2`, `failed_instances = 1`,
`total = 200`, and the exit status is 1. -/
theorem orchestrator_aggregation_witness :
    (((orchestrator_main (Except.ok
        [(Except.ok 100, 5), (Except.error (), 7), (Except.ok 100, 6)])).2.length
        = 3) ∧
      successful_instances (orchestrator_main (Except.ok
        [(Except.ok 100, 5), (Except.error (), 7), (Except.ok 100, 6)])).2 = 2 ∧
      failed_instances (orchestrator_main (Except.ok
        [(Except.ok 100, 5), (Except.error (), 7), (Except.ok 100, 6)])).2 = 1 ∧
      total_orders_generated (orchestrator_main (Except.ok
        [(Except.ok 100, 5), (Except.error (), 7), (Except.ok 100, 6)])).2 = 200 ∧
      (orchestrator_main (Except.ok
        [(Except.ok 100, 5), (Except.error (), 7), (Except.ok 100, 6)])).1 = 1) ∧
      ((orchestrator_main (Except.ok
          [(Except.ok 100, 5), (Except.error (), 7), (Except.ok 100, 6)])).1 ≠ 0 ↔
        0 < failed_instances (orchestrator_main (Except.ok
          [(Except.ok 100, 5), (Except.error (), 7), (Except.ok 100, 6)])).2) :=
  ⟨by decide,
    (orchestrator_aggregation
      [(Except.ok 100, 5), (Except.error (), 7), (Except.ok 100, 6)]).2.2.2.2.2.2.2.2.1⟩

/-! ## Claim C9 -/

/-- Half-up cent rounding of a non-negative value is non-negative. -/
theorem quantizeHalfUp2_nonneg {q : ℚ} (h : 0 ≤ q) :
    0 ≤ quantizeHalfUp2 q := by
  rw [quantizeHalfUp2, if_pos h]
  have hf : (0 : ℤ) ≤ ⌊q * 100 + 1 / 2⌋ := Int.le_floor.mpr (by push_cast; linarith)
  exact div_nonneg (by exact_mod_cast hf) (by norm_num)

/-- Half-up cent rounding is idempotent on non-negative values: an already
rounded value rounds to itself. -/
theorem quantizeHalfUp2_idem {q : ℚ} (h : 0 ≤ q) :
    quantizeHalfUp2 (quantizeHalfUp2 q) = quantizeHalfUp2 q := by
  have hq : quantizeHalfUp2 q = ((⌊q * 100 + 1 / 2⌋ : ℤ) : ℚ) / 100 := by
    rw [quantizeHalfUp2, if_pos h]
  have hk0 : (0 : ℚ) ≤ ((⌊q * 100 + 1 / 2⌋ : ℤ) : ℚ) / 100 := hq ▸ quantizeHalfUp2_nonneg h
  rw [hq, quantizeHalfUp2, if_pos hk0]
  have hfloor : ⌊((⌊q * 100 + 1 / 2⌋ : ℤ) : ℚ) / 100 * 100 + 1 / 2⌋
      = ⌊q * 100 + 1 / 2⌋ := by
    rw [show ((⌊q * 100 + 1 / 2⌋ : ℤ) : ℚ) / 100 * 100
        = ((⌊q * 100 + 1 / 2⌋ : ℤ) : ℚ) from by field_simp]
    rw [Int.floor_int_add]
    norm_num
  rw [hfloor]

/-- Claim C9: every generated order satisfies the monetary invariant —
`total_amount ≥ 0`, `shipping_cost ≥ 0`, `0 ≤ discount_percent ≤ 25`, and
the two currency fields are fixed points of half-up 2-decimal rounding —
and every generated order item satisfies
`line_total = round(unit_price * quantity, 2)` under half-up rounding. -/
theorem generator_monetary_invariants
    (customer_id : ℕ) (status_rand base_amount amount_r : ℚ)
    (discount_gate discount_val : ℕ) (shipping_r : ℚ)
    (order_id count : ℕ) (draws : ℕ → ItemDraw)
    (hbase : 0 < base_amount)
    (har0 : 0 ≤ amount_r)
    (hdv : discount_val ≤ 25)
    (hsr0 : 0 ≤ shipping_r) :
    OrderMonetaryInvariant
      (generate_order customer_id status_rand base_amount amount_r
        discount_gate discount_val shipping_r) ∧
      ∀ item ∈ generate_order_items order_id count draws,
        item.line_total
          = quantizeHalfUp2 (item.unit_price * (item.quantity : ℚ)) := by
  constructor
  · have hmM : max 10 base_amount ≤ max 50 (base_amount * (3 / 2)) := by
      apply max_le
      · exact le_trans (by norm_num) (le_max_left 50 (base_amount * (3 / 2)))
      · exact le_trans (by linarith) (le_max_right 50 (base_amount * (3 / 2)))
    have hm : (10 : ℚ) ≤ max 10 base_amount := le_max_left _ _
    have hval : (0 : ℚ) ≤ max 10 base_amount
        + (max 50 (base_amount * (3 / 2)) - max 10 base_amount) * amount_r := by
      have := mul_nonneg (by linarith :
        (0 : ℚ) ≤ max 50 (base_amount * (3 / 2)) - max 10 base_amount) har0
      linarith
    have hship : (0 : ℚ) ≤ 5 + ((50 : ℚ) - 5) * shipping_r := by
      have := mul_nonneg (by norm_num : (0 : ℚ) ≤ (50 : ℚ) - 5) hsr0
      linarith
    refine ⟨quantizeHalfUp2_nonneg hval, quantizeHalfUp2_nonneg hship,
      ?_, ?_, quantizeHalfUp2_idem hval, quantizeHalfUp2_idem hship⟩
    · show (0 : ℚ) ≤ if 7 < discount_gate then (discount_val : ℚ) else 0
      by_cases hg : 7 < discount_gate
      · rw [if_pos hg]; exact_mod_cast Nat.zero_le discount_val
      · rw [if_neg hg]
    · show (if 7 < discount_gate then (discount_val : ℚ) else 0) ≤ 25
      by_cases hg : 7 < discount_gate
      · rw [if_pos hg]; exact_mod_cast hdv
      · rw [if_neg hg]; norm_num
  · intro item hmem
    obtain ⟨i, _, rfl⟩ := List.mem_map.mp hmem
    rfl

/-- Claim C9, witness: the invariants at one concrete set of random
draws. -/
theorem generator_monetary_invariants_witness :
    ((0 : ℚ) < 200 ∧ (0 : ℚ) ≤ 1 / 2 ∧ (20 : ℕ) ≤ 25 ∧ (0 : ℚ) ≤ 1 / 4) ∧
      (OrderMonetaryInvariant
          (generate_order 42 (1 / 3) 200 (1 / 2) 9 20 (1 / 4)) ∧
        ∀ item ∈ generate_order_items 7 2 (fun _ => ⟨3, 2, 1 / 5⟩),
          item.line_total
            = quantizeHalfUp2 (item.unit_price * (item.quantity : ℚ))) :=
  ⟨by norm_num,
    generator_monetary_invariants 42 (1 / 3) 200 (1 / 2) 9 20 (1 / 4) 7 2
      (fun _ => ⟨3, 2, 1 / 5⟩) (by norm_num) (by norm_num) (by norm_num)
      (by norm_num)⟩

/-! ## Claim C10 -/

/-- Claim C10: calling `insert_orders` or `insert_order_items` with an
empty list is a total no-op — it returns at once with the channel state
unchanged (append log and committed-offset watermark untouched) and raises
no error, whatever the underlying append would do; and the offset-token
derivation from the first and last element is reached only on the
non-empty path, where the tokens are exactly `order_{first}`/`order_{last}`
(resp. `item_{first}`/`item_{last}`). -/
theorem insert_empty_is_noop
    (append : ChannelState → AppendCall → Except String ChannelState)
    (ch : ChannelState) :
    insert_orders append [] ch = .ok ch ∧
      insert_order_items append [] ch = .ok ch ∧
      (∀ o rest, insert_orders append (o :: rest) ch
        = append ch
            { rows := (o :: rest).length
              start_offset := ("order_") ++ o.order_id
              end_offset :=
                ("order_")
                  ++ ((o :: rest).getLast (List.cons_ne_nil o rest)).order_id }) ∧
      (∀ it rest, insert_order_items append (it :: rest) ch
        = append ch
            { rows := (it :: rest).length
              start_offset := ("item_") ++ it.order_item_id
              end_offset :=
                ("item_")
                  ++ ((it :: rest).getLast
                      (List.cons_ne_nil it rest)).order_item_id }) :=
  ⟨rfl, rfl, fun _ _ => rfl, fun _ _ => rfl⟩

/-- Claim C3, amended: for every table state, the orphaned-orders and
orphaned-items categories report `found = deleted`, both captured from the
row count of the statement that performed the delete (the row count equals
the number of rows the delete's `WHERE` clause matched); the
duplicate-orders category instead reports as `found` a separate count query
executed before the delete (`COUNT(*) - COUNT(DISTINCT order_id)` over the
orphan-cleaned orders table), which the counterexample shows can differ
from the delete's row count. -/
theorem orphan_found_eq_deleted (s : TableState) :
    ((reconcile_and_cleanup s).1.orphaned_orders_found
        = (reconcile_and_cleanup s).1.orphaned_orders_deleted) ∧
      ((reconcile_and_cleanup s).1.orphaned_items_found
        = (reconcile_and_cleanup s).1.orphaned_items_deleted) ∧
      ((reconcile_and_cleanup s).1.orphaned_orders_deleted
        = (s.orders.filter (fun o => !hasMatchingItem s.items o.order_id)).length) ∧
      ((reconcile_and_cleanup s).1.orphaned_items_deleted
        = (s.items.filter
            (fun it => !hasMatchingOrder (ordersAfterOrphanCleanup s) it.order_id)).length) ∧
      ((reconcile_and_cleanup s).1.duplicate_orders_found
        = duplicateOrdersFound (ordersAfterOrphanCleanup s)) := by
  refine ⟨rfl, rfl, ?_, ?_, rfl⟩
  · exact length_sub_length_filter s.orders _
  · exact length_sub_length_filter s.items _

end AutomatedIntelligence
